import Mathlib

/-!
Verification development for the versioned-accumulation and
watermark-consumption pipeline of the MLOPs_Automation repository.

The embedding covers the two core source files:

* `src/data_collection_and_versioning/cronjob.py` — the producer: the
  stateless feature transform (`preprocess_data`), the instream
  accumulation buffer, and the monotonic version publisher
  (`get_latest_version` plus the publish block of `main`);
* `src/models/linear_regression/train.py` — the consumer: the
  watermark lookup (`get_best_model_and_version`), the range loader
  (`load_versioned_data`) and the training run (`main`).

Modelling conventions, each noted at the definition it concerns:

* the GCS bucket `BUCKET_2` is a `Store`: the two instream objects plus a
  list of versioned blobs keyed by (version number, train or valid part);
  an upload overwrites the blob with the same key, a read of an absent
  blob is `none` (the Python code raises or returns `None` there, and in
  every caller that exception is handled as absence);
* pandas DataFrames are `Frame`s: a column-name list plus rows of
  numeric-or-missing cells, built from record lists with pandas'
  union-of-keys column semantics;
* collaborator libraries that the spec places out of scope keep only the
  contract the code relies on: sklearn's `FeatureHasher` becomes a fixed
  deterministic string-to-(bucket, sign) hash, numpy's seeded shuffle
  becomes an explicit permutation argument, and the model-fitting and
  metric computation of the training step become an accuracy argument;
* MLflow's tracking store for the one experiment is a list of `MRun`
  records (accuracy metric, `trained_till_version` tag, and whether the
  model artifact was successfully logged); environment failures the
  Python wraps in `try/except` become explicit `Bool` flags.
-/

deriving instance DecidableEq for Except

namespace MLOps

/-- A raw cell value as one upstream source yields it: a missing value
(pandas NaN / an absent key), a numeric value, or a string. -/
inductive RawVal where
  | na
  | num (x : Int)
  | str (s : String)
deriving DecidableEq

/-- One raw record (one CSV row or one MongoDB document): named fields. -/
abbrev RawRecord := List (String × RawVal)

/-- A raw batch, as `pd.DataFrame(records)` receives it. -/
abbrev RawBatch := List RawRecord

/-- A processed cell: a number, or `none` for NaN. -/
abbrev Cell := Option Int

/-- One row of a processed DataFrame. -/
abbrev Row := List Cell

/-- A pandas DataFrame after preprocessing: named columns and rows. -/
structure Frame where
  cols : List String
  rows : List Row
deriving DecidableEq

/-- `pd.DataFrame()`: no columns, no rows. -/
def emptyFrame : Frame := ⟨[], []⟩

/-- `NUMERICAL_COLS` of cronjob.py, in declared order. -/
def NUMERICAL_COLS : List String :=
  ["bedrooms", "bathrooms", "sqft_living", "sqft_lot", "floors",
   "waterfront", "view", "condition", "sqft_above", "sqft_basement",
   "yr_built", "yr_renovated"]

/-- `CATEGORICAL_COLS` of cronjob.py, in declared order. -/
def CATEGORICAL_COLS : List String := ["street", "city", "statezip", "country"]

/-- `HASH_FEATURES` of cronjob.py: hash dimension per categorical column. -/
def HASH_FEATURES : Nat := 10

/-- A deterministic string hash. sklearn's `FeatureHasher` (a library
collaborator, out of scope per the spec) uses signed MurmurHash3; the code
relies only on the hash being a stable function of the input string, which
this model preserves. -/
def strHash (s : String) : Nat :=
  s.data.foldl (fun h c => (h * 31 + c.toNat) % 1000003) 7

/-- The bucket index of a hashed string, in `[0, HASH_FEATURES)`. -/
def hashBucket (s : String) : Nat := strHash s % HASH_FEATURES

/-- The sign accumulated for a hashed string. -/
def hashSign (s : String) : Int := if strHash s % 2 = 0 then 1 else -1

/-- `FeatureHasher(n_features=10, input_type="string").transform([[s]])`:
a 10-slot vector with the signed unit in the hashed bucket. -/
def feature_hasher (s : String) : Row :=
  (List.range HASH_FEATURES).map
    (fun i => if i = hashBucket s then some (hashSign s) else some 0)

/-- pandas `Series.astype(str)` on one cell: NaN is stringified to the
literal string "nan". -/
def pyAstypeStr : RawVal → String
  | .na => "nan"
  | .num x => toString x
  | .str s => s

/-- `.fillna(repl)` applied to a series that `astype(str)` has already
produced: that series holds no NaN any more (astype stringified every NaN),
so fillna finds nothing to replace and the replacement argument is dead. -/
def pyFillna (s : String) (_repl : String) : String := s

/-- The string the code feeds to the hasher for one categorical cell:
`df[col].astype(str).fillna("unknown")` in that order. -/
def categoricalString (v : RawVal) : String := pyFillna (pyAstypeStr v) "unknown"

/-- `pd.to_numeric(col, errors="coerce").fillna(0)` on one cell: numbers
pass through, numeric strings are parsed, anything else becomes 0. -/
def pyToNumericFill0 : RawVal → Int
  | .num x => x
  | .str s => (s.toInt?).getD 0
  | .na => 0

/-- Reading field `c` of a record: an absent key is NaN, exactly as
`pd.DataFrame(records)` fills missing keys. -/
def getField (rec : RawRecord) (c : String) : RawVal :=
  ((rec.find? (fun kv => kv.1 == c)).map Prod.snd).getD .na

/-- Whether a record carries field `c` at all. -/
def hasField (rec : RawRecord) (c : String) : Bool :=
  rec.any (fun kv => kv.1 == c)

/-- Append a name to a column list unless already present (first-seen
order, as pandas unions column sets). -/
def dedupAppend (acc : List String) (k : String) : List String :=
  if k ∈ acc then acc else acc ++ [k]

/-- Fold one record's keys into a column list. -/
def recCols (acc : List String) (rec : RawRecord) : List String :=
  rec.foldl (fun a kv => dedupAppend a kv.1) acc

/-- The column set of `pd.DataFrame(records)`: the union of the records'
keys in first-seen order. -/
def batchCols (b : RawBatch) : List String := b.foldl recCols []

/-- Union of two column lists, keeping `a`'s order first. -/
def colsUnion (a b : List String) : List String := b.foldl dedupAppend a

/-- The errors `preprocess_data` can raise: the explicit
`ValueError("Price column not found in dataframe")`, and the `KeyError`
that `df[NUMERICAL_COLS]` raises when a declared numerical column is
absent from the frame. -/
inductive PreErr where
  | missingTarget
  | missingNumeric
deriving DecidableEq

/-- The hashed-feature column names contributed by categorical column `c`. -/
def hashColNames (c : String) : List String :=
  (List.range HASH_FEATURES).map (fun i => c ++ "_hash_" ++ toString i)

/-- The target cell kept by `processed_df["price"] = price.values`: the raw
price is carried over untouched (NaN stays NaN, it is never coerced). -/
def priceCell : RawVal → Cell
  | .num x => some x
  | .str s => s.toInt?
  | .na => none

/-- One output row of `preprocess_data`: the 12 numerical features in
declared order, then the hash blocks of the categorical columns present
(10 slots each, in declared column order), then the price. -/
def processedRow (cats : List String) (rec : RawRecord) : Row :=
  NUMERICAL_COLS.map (fun c => some (pyToNumericFill0 (getField rec c)))
    ++ cats.flatMap (fun c => feature_hasher (categoricalString (getField rec c)))
    ++ [priceCell (getField rec "price")]

/-- `preprocess_data` of cronjob.py. It raises when the price column is
absent from the frame; numerical coercion, categorical hashing and column
assembly follow the source line by line (categorical columns absent from
the frame are skipped by the `if col in df.columns` guards; a missing
numerical column makes `df[NUMERICAL_COLS]` raise `KeyError`). -/
def preprocess_data (b : RawBatch) : Except PreErr Frame :=
  let cols := batchCols b
  if "price" ∉ cols then .error .missingTarget
  else if ¬ (∀ c ∈ NUMERICAL_COLS, c ∈ cols) then .error .missingNumeric
  else
    let cats := CATEGORICAL_COLS.filter (fun c => decide (c ∈ cols))
    .ok ⟨NUMERICAL_COLS ++ cats.flatMap hashColNames ++ ["price"],
         b.map (processedRow cats)⟩

/-- The two parts of a dataset version or of the instream buffer. -/
inductive Part where
  | train
  | valid
deriving DecidableEq

/-- The durable bucket `BUCKET_2`: the two instream objects
(`instream/train.csv`, `instream/valid.csv`; `none` = absent) and the
versioned blobs `versioned/v{N}/{part}.csv`. -/
structure Store where
  instreamTrain : Option Frame
  instreamValid : Option Frame
  blobs : List (Nat × Part × Frame)
deriving DecidableEq

/-- A store with nothing in it. -/
def emptyStore : Store := ⟨none, none, []⟩

/-- The version numbers the `versioned/` listing yields: every blob under
`versioned/v{N}/` contributes its `N` (the regex `versioned/v(\d+)/` in
both `get_latest_version` and `get_latest_version_from_gcs`). -/
def versionsOf (s : Store) : List Nat := s.blobs.map (fun b => b.1)

/-- `get_latest_version` of cronjob.py = `get_latest_version_from_gcs` of
train.py, in full: the whole body sits in one `try`, and a failed
`versioned/` listing is caught and answered with 0 (`listOk = false`) —
indistinguishable from a store holding no version. On a healthy listing
the result is the maximum listed version number, 0 when none exists. -/
def get_latest_version_full (s : Store) (listOk : Bool) : Nat :=
  if listOk then (versionsOf s).foldr max 0 else 0

/-- `get_latest_version` under a healthy listing. -/
def get_latest_version (s : Store) : Nat := get_latest_version_full s true

/-- `read_csv_from_gcs` on a versioned blob: the frame stored under the
key, or `none` when the blob is absent or unreadable (train.py raises
there; every caller treats the exception as absence). -/
def read_csv_from_gcs (s : Store) (v : Nat) (p : Part) : Option Frame :=
  (s.blobs.find? (fun b => decide (b.1 = v ∧ b.2.1 = p))).map (fun b => b.2.2)

/-- `upload_csv_to_gcs` on a versioned blob: overwrite the blob under the
same key, keep every other blob. -/
def upload_csv_to_gcs (s : Store) (v : Nat) (p : Part) (f : Frame) : Store :=
  { s with blobs := (v, p, f) :: s.blobs.filter (fun b => !decide (b.1 = v ∧ b.2.1 = p)) }

/-- Step 2 of the producer drops the `date` column of csv-1 when present. -/
def drop_date (b : RawBatch) : RawBatch :=
  b.map (fun rec => rec.filter (fun kv => !(kv.1 == "date")))

/-- How one producer run ends. -/
inductive POutcome where
  | noNewData
  | preprocessError (e : PreErr)
  | published (v : Nat)
  | buffered
deriving DecidableEq

/-- Step 6 of the producer's `main`, train half: shuffle the preprocessed
rows with the seeded numpy permutation (`sample(frac=1, random_state=42)`,
passed in as `perm` since the numpy generator is a library collaborator),
then take the first `int(len * TRAIN_TEST_SPLIT)` rows (the split fraction
passed as `splitNum / splitDen`). -/
def splitTrain (splitNum splitDen : Nat) (perm : List Row → List Row) (p : Frame) :
    List Row :=
  (perm p.rows).take (p.rows.length * splitNum / splitDen)

/-- Step 6 of the producer's `main`, valid half: the rows after the split
point of the shuffled preprocessed frame. -/
def splitValid (splitNum splitDen : Nat) (perm : List Row → List Row) (p : Frame) :
    List Row :=
  (perm p.rows).drop (p.rows.length * splitNum / splitDen)

/-- The train rows of the instream buffer as step 1 loads them (an absent
object loads as an empty frame). -/
def bufTrainRows (s : Store) : List Row := (s.instreamTrain.getD emptyFrame).rows

/-- The valid rows of the instream buffer as step 1 loads them. -/
def bufValidRows (s : Store) : List Row := (s.instreamValid.getD emptyFrame).rows

/-- Steps 5-9 of the producer's `main`, from `preprocess_data`'s result
on: the deterministic shuffle and split (`splitTrain`/`splitValid`), the
merge onto the loaded buffer rows (existing buffer rows first), and the
batch-size branch that either publishes version `latest + 1` or writes
the merged buffer back to `instream/`. `s1` is the store after step 1
already deleted the instream objects; `t1`/`v1` are the buffer frames
loaded there. A raised preprocessing error propagates out of `main` with
the store as it stands. -/
def cronjobAfterPre (batchSize splitNum splitDen : Nat) (perm : List Row → List Row)
    (s1 : Store) (t1 v1 : Frame) : Except PreErr Frame → Store × POutcome
  | .error e => (s1, .preprocessError e)
  | .ok p =>
    let newTrain := splitTrain splitNum splitDen perm p
    let newValid := splitValid splitNum splitDen perm p
    let finalTrain : Frame :=
      if t1.rows.isEmpty then ⟨p.cols, newTrain⟩
      else ⟨colsUnion t1.cols p.cols, t1.rows ++ newTrain⟩
    let finalValid : Frame :=
      if v1.rows.isEmpty then ⟨p.cols, newValid⟩
      else ⟨colsUnion v1.cols p.cols, v1.rows ++ newValid⟩
    if batchSize ≤ finalTrain.rows.length then
      let v := get_latest_version s1 + 1
      (upload_csv_to_gcs (upload_csv_to_gcs s1 v .train finalTrain) v .valid finalValid,
       .published v)
    else
      ({ s1 with instreamTrain := some finalTrain, instreamValid := some finalValid },
       .buffered)

/-- `main` of cronjob.py, one producer run. `src1` is `data.csv` of
`BUCKET_1` (`none` = absent or unreadable), `src2` the MongoDB collection
(already empty on a connection error, as `read_mongodb_collection`
catches and returns an empty frame). Step 1 loads the instream buffer
pair and deletes both objects from the store; step 4 returns early when
both sources are empty — with the instream objects already gone. -/
def cronjob_main (batchSize splitNum splitDen : Nat) (perm : List Row → List Row)
    (s : Store) (src1 : Option RawBatch) (src2 : RawBatch) : Store × POutcome :=
  let t1 := s.instreamTrain.getD emptyFrame
  let v1 := s.instreamValid.getD emptyFrame
  let s1 : Store := { s with instreamTrain := none, instreamValid := none }
  let csv1 := (src1.map drop_date).getD []
  let csv2 := src2
  if csv1.isEmpty && csv2.isEmpty then (s1, .noNewData)
  else cronjobAfterPre batchSize splitNum splitDen perm s1 t1 v1
    (preprocess_data (csv1 ++ csv2))

/-- One attempted publish, as the publish block of the producer's `main`
performs it: call `get_latest_version` — whose listing can fail and be
swallowed as 0, `listOk` saying whether it succeeded — add 1, then upload
the train and valid files. `upload_csv_to_gcs` in the source catches its
own errors and returns `False`, which `main` ignores, so either file's
write can fail silently: `okT`/`okV` say which writes took effect. -/
structure PubOp where
  t : Frame
  u : Frame
  listOk : Bool
  okT : Bool
  okV : Bool
deriving DecidableEq

/-- The publish block of cronjob.py's `main` (steps 8-9, publish branch)
run against a store, with the listing failure and the per-file write
failures of `PubOp`. -/
def publish_attempt (s : Store) (op : PubOp) : Store × Nat :=
  let v := get_latest_version_full s op.listOk + 1
  let s1 := if op.okT then upload_csv_to_gcs s v .train op.t else s
  let s2 := if op.okV then upload_csv_to_gcs s1 v .valid op.u else s1
  (s2, v)

/-- One row of a publish trace: the store the attempt saw, the version
number it chose, and whether at least one file write took effect. -/
structure PubRec where
  pre : Store
  version : Nat
  wrote : Bool
deriving DecidableEq

/-- A sequence of publish attempts, recording each attempt's pre-state,
chosen version and write success. -/
def publishTrace : Store → List PubOp → List PubRec
  | _, [] => []
  | s, op :: ops =>
    ⟨s, (publish_attempt s op).2, op.okT || op.okV⟩ ::
      publishTrace (publish_attempt s op).1 ops

/-- One MLflow run of the experiment as the consumer reads it back: its
`accuracy` metric, the parsed `trained_till_version` tag (`v{N}` ↦ `N`;
an absent tag reads as `v0` ↦ 0), and whether the model artifact under
`runs:/{id}/model` is present and loadable. -/
structure MRun where
  runId : Nat
  accuracy : Int
  trainedTill : Nat
  modelOk : Bool
deriving DecidableEq

/-- The experiment's tracking state: its runs, oldest first. -/
abbrev Experiment := List MRun

/-- `mlflow.search_runs(order_by=["metrics.accuracy DESC"], max_results=1)`:
the run with the greatest accuracy (an earlier run wins a tie). -/
def bestRun : Experiment → Option MRun
  | [] => none
  | r :: rs =>
    match bestRun rs with
    | none => some r
    | some b => if b.accuracy > r.accuracy then some b else some r

/-- `get_best_model_and_version` of train.py: the loaded model (opaque
here) and the parsed `trained_till_version` of the best run. The whole
body sits in one `try`: a failed run search (`searchOk = false`), no runs,
or a best run whose model artifact cannot be loaded all fall back to
`(None, 0)`. -/
def get_best_model_and_version (exp : Experiment) (searchOk : Bool) :
    Option Unit × Nat :=
  if searchOk then
    match bestRun exp with
    | none => (none, 0)
    | some r => if r.modelOk then (some (), r.trainedTill) else (none, 0)
  else (none, 0)

/-- The experiment's durably recorded watermark as the next consumer run
derives it: the `trained_till_version` of the best-accuracy run, through
`get_best_model_and_version` with a healthy tracking store. -/
def watermark (exp : Experiment) : Nat := (get_best_model_and_version exp true).2

/-- One loop iteration of `load_versioned_data`: read the version's train
file then its valid file; if either read raises, the `except` skips the
whole version (both appends sit after both reads). -/
def readVersion (s : Store) (v : Nat) : Option (Frame × Frame) :=
  match read_csv_from_gcs s v .train, read_csv_from_gcs s v .valid with
  | some t, some u => some (t, u)
  | _, _ => none

/-- The error `load_versioned_data` raises when no version in the range
could be read (`ValueError("No training data found ...")`). -/
inductive LoadErr where
  | noData
deriving DecidableEq

/-- `range(start, end + 1)`: the inclusive version range. -/
def versionRange (a b : Nat) : List Nat := List.range' a (b + 1 - a)

/-- `pd.concat(frames, ignore_index=True)`: rows appended in order,
columns unioned in first-seen order. (Row padding for heterogeneous
schemas is not modelled; every concatenation the claims exercise is over
frames of one schema.) -/
def concatFrames (fs : List Frame) : Frame :=
  ⟨fs.foldl (fun acc f => colsUnion acc f.cols) [], fs.flatMap Frame.rows⟩

/-- `load_versioned_data` of train.py: walk the inclusive range, skip a
version whose train or valid file cannot be read, raise when nothing was
read, else concatenate the train parts and the valid parts in range
order. -/
def load_versioned_data (s : Store) (a b : Nat) : Except LoadErr (Frame × Frame) :=
  let pairs := (versionRange a b).filterMap (readVersion s)
  if pairs.isEmpty then .error .noData
  else .ok (concatFrames (pairs.map Prod.fst), concatFrames (pairs.map Prod.snd))

/-- The merged train rows `load_versioned_data` returns, `none` when it
raises. -/
def mergedTrainRows (s : Store) (a b : Nat) : Option (List Row) :=
  match load_versioned_data s a b with
  | .ok (mt, _) => some mt.rows
  | .error _ => none

/-- The merged valid rows `load_versioned_data` returns, `none` when it
raises. -/
def mergedValidRows (s : Store) (a b : Nat) : Option (List Row) :=
  match load_versioned_data s a b with
  | .ok (_, mv) => some mv.rows
  | .error _ => none

/-- The versions of the inclusive range whose train and valid files are
both readable, in increasing order. -/
def readableVersions (s : Store) (a b : Nat) : List Nat :=
  (versionRange a b).filter (fun v => (readVersion s v).isSome)

/-- The train rows stored for version `v` (empty when absent). -/
def trainRowsOf (s : Store) (v : Nat) : List Row :=
  ((read_csv_from_gcs s v .train).getD emptyFrame).rows

/-- The valid rows stored for version `v` (empty when absent). -/
def validRowsOf (s : Store) (v : Nat) : List Row :=
  ((read_csv_from_gcs s v .valid).getD emptyFrame).rows

/-- How one consumer run ends. -/
inductive COutcome where
  | noVersions
  | upToDate
  | abortedLoad
  | abortedNoPrice
  | committed
  | abortedLogModel
deriving DecidableEq

/-- What one consumer run leaves behind: the experiment's runs after it,
whether the training call happened, whether the 53-column check printed
its warning, how the run ended, and the merged data it trained on. -/
structure CResult where
  exp : Experiment
  trained : Bool
  widthWarn : Bool
  outcome : COutcome
  loaded : Option (Frame × Frame)
deriving DecidableEq

/-- Steps 6-10 of the consumer's `main`, from `load_versioned_data`'s
result on: a raised load error propagates (nothing recorded); the
53-column check only prints a warning; an absent `price` column in the
merged train frame raises, and `merged_valid.drop('price')` raises when
the valid frame lacks it — both before the MLflow run starts. Otherwise
the MLflow run is started, the model is trained and evaluated (the
collaborator-owned step whose accuracy arrives as `acc`), the metrics and
the tag `trained_till_version = v{L}` are logged, and then
`mlflow.sklearn.log_model` runs: when it fails (`logOk = false`) the
exception ends the run FAILED, but the run — with its metrics and its tag
already logged — stays recorded; only the model artifact is missing. -/
def trainAfterLoad (exp : Experiment) (logOk : Bool) (newId : Nat) (acc : Int)
    (L : Nat) : Except LoadErr (Frame × Frame) → CResult
  | .error _ => ⟨exp, false, false, .abortedLoad, none⟩
  | .ok (mt, mv) =>
    let warn : Bool := decide (mt.cols.length ≠ 53)
    if "price" ∈ mt.cols ∧ "price" ∈ mv.cols then
      ⟨exp ++ [⟨newId, acc, L, logOk⟩], true, warn,
       if logOk then .committed else .abortedLogModel, some (mt, mv)⟩
    else ⟨exp, false, warn, .abortedNoPrice, none⟩

/-- `main` of train.py, one consumer run: read the watermark `W` through
`get_best_model_and_version`, the latest version `L` from the store;
return when no version exists or when `W + 1 > L`; otherwise load the
pending range `[W + 1, L]` and continue in `trainAfterLoad`. -/
def train_main (exp : Experiment) (s : Store) (searchOk logOk : Bool)
    (newId : Nat) (acc : Int) : CResult :=
  let W := (get_best_model_and_version exp searchOk).2
  let L := get_latest_version s
  if L = 0 then ⟨exp, false, false, .noVersions, none⟩
  else if L < W + 1 then ⟨exp, false, false, .upToDate, none⟩
  else trainAfterLoad exp logOk newId acc L (load_versioned_data s (W + 1) L)

/-! Concrete fixtures used by the closed theorems and witnesses below. -/

/-- A one-column, one-row frame holding only a price cell. -/
def priceFrame (x : Int) : Frame := ⟨["price"], [[some x]]⟩

/-- A store with versions v1 and v2 fully published and readable. -/
def c1Store : Store :=
  ⟨none, none, [(1, .train, priceFrame 1), (1, .valid, priceFrame 1),
                (2, .train, priceFrame 2), (2, .valid, priceFrame 2)]⟩

/-- An experiment whose one run (accuracy 5) was trained through v1 and
has its model artifact intact: the derived watermark is 1. -/
def c1Exp : Experiment := [⟨0, 5, 1, true⟩]

/-- A store with versions v1..v3 fully published and readable. -/
def c2Store : Store :=
  ⟨none, none, [(1, .train, priceFrame 1), (1, .valid, priceFrame 1),
                (2, .train, priceFrame 2), (2, .valid, priceFrame 2),
                (3, .train, priceFrame 3), (3, .valid, priceFrame 3)]⟩

/-- An experiment whose best run (accuracy 9) was trained through v2. -/
def c2Exp : Experiment := [⟨0, 9, 2, true⟩]

/-- A store already holding a fully published version v1. -/
def c3Store : Store :=
  ⟨none, none, [(1, .train, priceFrame 1), (1, .valid, priceFrame 1)]⟩

/-- A publish attempt whose `versioned/` listing fails (the swallowed
except path of `get_latest_version`) while both uploads succeed. -/
def c3FailOp : PubOp := ⟨priceFrame 9, priceFrame 9, false, true, true⟩

/-- A publish attempt with a healthy listing and successful uploads. -/
def c3OkOp : PubOp := ⟨priceFrame 9, priceFrame 9, true, true, true⟩

/-- A store whose instream buffer holds one train row and no versions. -/
def c4Store : Store := ⟨some ⟨["price"], [[some 7]]⟩, some ⟨["price"], []⟩, []⟩

/-- A store whose instream buffer holds two train rows and one valid row,
far below any realistic batch size. -/
def c5Store : Store :=
  ⟨some ⟨["price"], [[some 7], [some 8]]⟩, some ⟨["price"], [[some 9]]⟩, []⟩

/-- A two-column versioned frame: 2 columns instead of the expected 53. -/
def wideFrame : Frame := ⟨["bedrooms", "price"], [[some 1, some 2]]⟩

/-- A store whose only version v1 has 2 columns instead of 53. -/
def c6Store : Store := ⟨none, none, [(1, .train, wideFrame), (1, .valid, wideFrame)]⟩

/-- A record carrying all 12 numerical fields (each 1) and nothing else. -/
def numRec : RawRecord := NUMERICAL_COLS.map (fun c => (c, RawVal.num 1))

/-- `numRec` plus a price of 10. -/
def c7RecFull : RawRecord := numRec ++ [("price", RawVal.num 10)]

/-- A batch whose first record has the target and whose second lacks it. -/
def c7Batch : RawBatch := [c7RecFull, numRec]

/-- A full record except that the city field is left out, to be varied. -/
def catRecBase : RawRecord :=
  numRec ++ [("street", RawVal.str "s"), ("statezip", RawVal.str "z"),
             ("country", RawVal.str "c"), ("price", RawVal.num 10)]

/-- `catRecBase` with a missing (NaN) city value. -/
def c8BatchNa : RawBatch := [catRecBase ++ [("city", RawVal.na)]]

/-- `catRecBase` with the literal city string "nan". -/
def c8BatchNan : RawBatch := [catRecBase ++ [("city", RawVal.str "nan")]]

/-- `catRecBase` with the literal city string "unknown". -/
def c8BatchUnknown : RawBatch := [catRecBase ++ [("city", RawVal.str "unknown")]]

/-- A store whose only version v1 is half-written: the train file exists,
the valid file is missing. -/
def c9Store : Store := ⟨none, none, [(1, .train, priceFrame 1)]⟩

/-- A store for witnesses: v1 and v2 fully published and readable. -/
def demoStore : Store :=
  ⟨none, none, [(1, .train, priceFrame 1), (1, .valid, priceFrame 1),
                (2, .train, priceFrame 2), (2, .valid, priceFrame 2)]⟩

/-- A store for the C9 witness: v1 fully published, v2 half-written. -/
def w9Store : Store :=
  ⟨none, none, [(1, .train, priceFrame 1), (1, .valid, priceFrame 1),
                (2, .train, priceFrame 2)]⟩

/-- The frame `preprocess_data` yields on `[c7RecFull]` (no categorical
column present): the 12 numeric features and the price. -/
def w5Frame : Frame :=
  ⟨NUMERICAL_COLS ++ ["price"], [(NUMERICAL_COLS.map (fun _ => some 1)) ++ [some 10]]⟩

/-- A store for the C5 witness: one buffered train row, no versions. -/
def w5Store : Store := ⟨some ⟨["price"], [[some 3]]⟩, some ⟨["price"], []⟩, []⟩

/-- The merged frame the consumer loads from `demoStore` over `[1, 2]`. -/
def w10Frame : Frame := ⟨["price"], [[some 1], [some 2]]⟩

/-- An experiment already trained through v2 (accuracy 5, model intact). -/
def w10Exp : Experiment := [⟨0, 5, 2, true⟩]

end MLOps

/-! Helper lemmas shared by the claim theorems. -/

namespace MLOps

theorem le_foldr_max {l : List Nat} {x : Nat} (h : x ∈ l) : x ≤ l.foldr max 0 := by
  induction l with
  | nil => cases h
  | cons a t ih =>
    rcases List.mem_cons.mp h with rfl | h
    · exact le_max_left _ _
    · exact le_trans (ih h) (le_max_right _ _)

theorem foldr_max_le {l : List Nat} {m : Nat} (h : ∀ x ∈ l, x ≤ m) : l.foldr max 0 ≤ m := by
  induction l with
  | nil => exact Nat.zero_le m
  | cons a t ih =>
    exact max_le (h a (List.mem_cons_self a t)) (ih (fun x hx => h x (List.mem_cons_of_mem a hx)))

theorem mem_versionsOf_upload {s : Store} {x : Nat} (v : Nat) (p : Part) (f : Frame)
    (h : x ∈ versionsOf s) : x = v ∨ x ∈ versionsOf (upload_csv_to_gcs s v p f) := by
  rcases List.mem_map.mp h with ⟨b, hb, rfl⟩
  by_cases hq : b.1 = v ∧ b.2.1 = p
  · exact Or.inl hq.1
  · refine Or.inr (List.mem_map.mpr ⟨b, ?_, rfl⟩)
    exact List.mem_cons_of_mem _ (List.mem_filter.mpr ⟨hb, by simp [hq]⟩)

theorem self_mem_versionsOf_upload (s : Store) (v : Nat) (p : Part) (f : Frame) :
    v ∈ versionsOf (upload_csv_to_gcs s v p f) :=
  List.mem_map.mpr ⟨(v, p, f), List.mem_cons_self _ _, rfl⟩

theorem latest_le_upload (s : Store) (v : Nat) (p : Part) (f : Frame) :
    get_latest_version s ≤ get_latest_version (upload_csv_to_gcs s v p f) := by
  refine foldr_max_le (fun x hx => ?_)
  rcases mem_versionsOf_upload v p f hx with rfl | h
  · exact le_foldr_max (self_mem_versionsOf_upload s x p f)
  · exact le_foldr_max h

theorem latest_upload_ge (s : Store) (v : Nat) (p : Part) (f : Frame) :
    v ≤ get_latest_version (upload_csv_to_gcs s v p f) :=
  le_foldr_max (self_mem_versionsOf_upload s v p f)

theorem latest_publish_attempt_mono (s : Store) (op : PubOp) :
    get_latest_version s ≤ get_latest_version (publish_attempt s op).1 := by
  unfold publish_attempt
  cases hT : op.okT <;> cases hV : op.okV <;> simp [hT, hV]
  · exact latest_le_upload _ _ _ _
  · exact latest_le_upload _ _ _ _
  · exact le_trans (latest_le_upload _ _ _ _) (latest_le_upload _ _ _ _)

theorem latest_publish_attempt_wrote (s : Store) (op : PubOp)
    (hL : op.listOk = true) (h : (op.okT || op.okV) = true) :
    get_latest_version s < get_latest_version (publish_attempt s op).1 := by
  have hfull : get_latest_version_full s op.listOk = get_latest_version s := by
    rw [hL]
    rfl
  unfold publish_attempt
  rw [hfull]
  cases hT : op.okT <;> cases hV : op.okV <;> simp [hT, hV] at h ⊢
  · exact Nat.lt_of_succ_le
      (latest_upload_ge s (get_latest_version s + 1) Part.valid op.u)
  · exact Nat.lt_of_succ_le
      (latest_upload_ge s (get_latest_version s + 1) Part.train op.t)
  · exact Nat.lt_of_succ_le
      (le_trans (latest_upload_ge s (get_latest_version s + 1) Part.train op.t)
        (latest_le_upload (upload_csv_to_gcs s (get_latest_version s + 1) Part.train op.t)
          (get_latest_version s + 1) Part.valid op.u))

theorem publish_attempt_snd (s : Store) (op : PubOp) :
    (publish_attempt s op).2 = get_latest_version_full s op.listOk + 1 := rfl

theorem publish_attempt_snd_ok (s : Store) (op : PubOp) (hL : op.listOk = true) :
    (publish_attempt s op).2 = get_latest_version s + 1 := by
  rw [publish_attempt_snd, hL]
  rfl

theorem trace_version_gt (ops : List PubOp) (s : Store)
    (hops : ∀ op ∈ ops, op.listOk = true) :
    ∀ r ∈ publishTrace s ops, get_latest_version s < r.version := by
  induction ops generalizing s with
  | nil => intro r hr; cases hr
  | cons op ops ih =>
    intro r hr
    rcases List.mem_cons.mp hr with rfl | hr
    · show get_latest_version s < (publish_attempt s op).2
      rw [publish_attempt_snd_ok s op (hops op (List.mem_cons_self op ops))]
      omega
    · exact lt_of_le_of_lt (latest_publish_attempt_mono s op)
        (ih _ (fun q hq => hops q (List.mem_cons_of_mem op hq)) r hr)

theorem trace_version_eq (ops : List PubOp) (s : Store)
    (hops : ∀ op ∈ ops, op.listOk = true) :
    ∀ r ∈ publishTrace s ops, r.version = get_latest_version r.pre + 1 := by
  induction ops generalizing s with
  | nil => intro r hr; cases hr
  | cons op ops ih =>
    intro r hr
    rcases List.mem_cons.mp hr with rfl | hr
    · exact publish_attempt_snd_ok s op (hops op (List.mem_cons_self op ops))
    · exact ih _ (fun q hq => hops q (List.mem_cons_of_mem op hq)) r hr

theorem trace_pairwise (ops : List PubOp) (s : Store)
    (hops : ∀ op ∈ ops, op.listOk = true) :
    (((publishTrace s ops).filter (fun r => r.wrote)).map (fun r => r.version)).Pairwise (· < ·) := by
  induction ops generalizing s with
  | nil => simp [publishTrace]
  | cons op ops ih =>
    have hL : op.listOk = true := hops op (List.mem_cons_self op ops)
    have hops' : ∀ q ∈ ops, q.listOk = true :=
      fun q hq => hops q (List.mem_cons_of_mem op hq)
    show ((PubRec.mk s (publish_attempt s op).2 (op.okT || op.okV) ::
      publishTrace (publish_attempt s op).1 ops).filter (fun r => r.wrote)).map
        (fun r => r.version) |>.Pairwise (· < ·)
    by_cases hw : (op.okT || op.okV) = true
    · rw [List.filter_cons_of_pos (by simpa using hw)]
      rw [List.map_cons]
      refine List.pairwise_cons.mpr ⟨?_, ih _ hops'⟩
      intro w hwmem
      rcases List.mem_map.mp hwmem with ⟨r, hrf, rfl⟩
      have hrt := (List.mem_filter.mp hrf).1
      have h1 : get_latest_version (publish_attempt s op).1 < r.version :=
        trace_version_gt ops _ hops' r hrt
      have h2 : get_latest_version s < get_latest_version (publish_attempt s op).1 :=
        latest_publish_attempt_wrote s op hL hw
      show (publish_attempt s op).2 < r.version
      rw [publish_attempt_snd_ok s op hL]
      omega
    · rw [List.filter_cons_of_neg (by simpa using hw)]
      exact ih _ hops'

theorem bestRun_append_max (exp : Experiment) (n : MRun)
    (h : ∀ r ∈ exp, r.accuracy < n.accuracy) :
    bestRun (exp ++ [n]) = some n := by
  induction exp with
  | nil => rfl
  | cons r rs ih =>
    have hr : r.accuracy < n.accuracy := h r (List.mem_cons_self r rs)
    have hrs : ∀ x ∈ rs, x.accuracy < n.accuracy :=
      fun x hx => h x (List.mem_cons_of_mem r hx)
    show bestRun (r :: (rs ++ [n])) = some n
    simp only [bestRun, ih hrs]
    rw [if_pos hr]

theorem get_best_append_max (exp : Experiment) (n : MRun)
    (h : ∀ r ∈ exp, r.accuracy < n.accuracy) (hok : n.modelOk = true) :
    get_best_model_and_version (exp ++ [n]) true = (some (), n.trainedTill) := by
  simp [get_best_model_and_version, bestRun_append_max exp n h, hok]

theorem train_main_noVersions (exp : Experiment) (s : Store) (so lo : Bool)
    (id : Nat) (a : Int) (h : get_latest_version s = 0) :
    train_main exp s so lo id a = ⟨exp, false, false, .noVersions, none⟩ := by
  simp [train_main, h]

theorem train_main_upToDate (exp : Experiment) (s : Store) (so lo : Bool)
    (id : Nat) (a : Int) (h0 : get_latest_version s ≠ 0)
    (h : get_latest_version s < (get_best_model_and_version exp so).2 + 1) :
    train_main exp s so lo id a = ⟨exp, false, false, .upToDate, none⟩ := by
  simp [train_main, h0, h]

theorem train_main_loadError (exp : Experiment) (s : Store) (so lo : Bool)
    (id : Nat) (a : Int) (e : LoadErr) (h0 : get_latest_version s ≠ 0)
    (h1 : ¬ get_latest_version s < (get_best_model_and_version exp so).2 + 1)
    (hl : load_versioned_data s ((get_best_model_and_version exp so).2 + 1)
            (get_latest_version s) = .error e) :
    train_main exp s so lo id a = ⟨exp, false, false, .abortedLoad, none⟩ := by
  simp [train_main, h0, h1, hl, trainAfterLoad]

theorem train_main_run (exp : Experiment) (s : Store) (so lo : Bool)
    (id : Nat) (a : Int) (mt mv : Frame) (h0 : get_latest_version s ≠ 0)
    (h1 : ¬ get_latest_version s < (get_best_model_and_version exp so).2 + 1)
    (hl : load_versioned_data s ((get_best_model_and_version exp so).2 + 1)
            (get_latest_version s) = .ok (mt, mv)) :
    train_main exp s so lo id a =
      if "price" ∈ mt.cols ∧ "price" ∈ mv.cols then
        ⟨exp ++ [⟨id, a, get_latest_version s, lo⟩], true, decide (mt.cols.length ≠ 53),
         if lo then .committed else .abortedLogModel, some (mt, mv)⟩
      else ⟨exp, false, decide (mt.cols.length ≠ 53), .abortedNoPrice, none⟩ := by
  simp only [train_main, if_neg h0, if_neg h1, hl, trainAfterLoad]

theorem rows_concatFrames (fs : List Frame) :
    (concatFrames fs).rows = fs.flatMap Frame.rows := rfl

theorem readVersion_eq_some {s : Store} {v : Nat} {t u : Frame}
    (h : readVersion s v = some (t, u)) :
    read_csv_from_gcs s v Part.train = some t ∧
    read_csv_from_gcs s v Part.valid = some u := by
  unfold readVersion at h
  rcases h1 : read_csv_from_gcs s v Part.train with _ | t' <;>
    rcases h2 : read_csv_from_gcs s v Part.valid with _ | u' <;>
      rw [h1, h2] at h <;> simp at h
  exact ⟨by rw [h.1], by rw [h.2]⟩

theorem train_rows_of_filterMap (s : Store) (l : List Nat) :
    (concatFrames ((l.filterMap (readVersion s)).map Prod.fst)).rows =
      (l.filter (fun v => (readVersion s v).isSome)).flatMap (fun v => trainRowsOf s v) := by
  rw [rows_concatFrames]
  induction l with
  | nil => rfl
  | cons v t ih =>
    rcases hv : readVersion s v with _ | ⟨tf, uf⟩
    · simp only [List.filterMap_cons, hv, List.filter_cons, Option.isSome_none,
        Bool.false_eq_true, if_false]
      exact ih
    · have hr := readVersion_eq_some hv
      simp only [List.filterMap_cons, hv, List.filter_cons, Option.isSome_some, if_pos,
        List.map_cons, List.flatMap_cons, ih, trainRowsOf, hr.1, Option.getD_some]

theorem valid_rows_of_filterMap (s : Store) (l : List Nat) :
    (concatFrames ((l.filterMap (readVersion s)).map Prod.snd)).rows =
      (l.filter (fun v => (readVersion s v).isSome)).flatMap (fun v => validRowsOf s v) := by
  rw [rows_concatFrames]
  induction l with
  | nil => rfl
  | cons v t ih =>
    rcases hv : readVersion s v with _ | ⟨tf, uf⟩
    · simp only [List.filterMap_cons, hv, List.filter_cons, Option.isSome_none,
        Bool.false_eq_true, if_false]
      exact ih
    · have hr := readVersion_eq_some hv
      simp only [List.filterMap_cons, hv, List.filter_cons, Option.isSome_some, if_pos,
        List.map_cons, List.flatMap_cons, ih, validRowsOf, hr.2, Option.getD_some]

theorem load_versioned_data_ok (s : Store) (a b : Nat)
    (h : ((versionRange a b).filterMap (readVersion s)).isEmpty = false) :
    load_versioned_data s a b = .ok
      (concatFrames (((versionRange a b).filterMap (readVersion s)).map Prod.fst),
       concatFrames (((versionRange a b).filterMap (readVersion s)).map Prod.snd)) := by
  simp only [load_versioned_data, h, Bool.false_eq_true, if_false]

theorem find?_filter_of_removed {α} (l : List α) (P K : α → Bool)
    (h : ∀ b, K b = false → P b = false) : (l.filter K).find? P = l.find? P := by
  induction l with
  | nil => rfl
  | cons a t ih =>
    by_cases hK : K a = true
    · rw [List.filter_cons_of_pos hK]
      cases hP : P a
      · rw [List.find?_cons_of_neg _ (by simp [hP]), List.find?_cons_of_neg _ (by simp [hP])]
        exact ih
      · rw [List.find?_cons_of_pos _ hP, List.find?_cons_of_pos _ hP]
    · have hK' : K a = false := by simpa using hK
      rw [List.filter_cons_of_neg (by simp [hK']),
        List.find?_cons_of_neg _ (by simp [h a hK'])]
      exact ih

theorem read_upload_self (s : Store) (v : Nat) (p : Part) (f : Frame) :
    read_csv_from_gcs (upload_csv_to_gcs s v p f) v p = some f := by
  unfold read_csv_from_gcs upload_csv_to_gcs
  rw [List.find?_cons_of_pos _ (by simp)]
  rfl

theorem read_upload_other (s : Store) (v : Nat) (p : Part) (f : Frame) (w : Nat) (q : Part)
    (h : ¬ (v = w ∧ p = q)) :
    read_csv_from_gcs (upload_csv_to_gcs s v p f) w q = read_csv_from_gcs s w q := by
  unfold read_csv_from_gcs upload_csv_to_gcs
  rw [List.find?_cons_of_neg _ (by simpa using h)]
  rw [find?_filter_of_removed]
  intro b hb
  simp only [Bool.not_eq_false', decide_eq_true_eq] at hb
  simp only [decide_eq_false_iff_not]
  rintro ⟨h1, h2⟩
  exact h ⟨hb.1 ▸ h1, hb.2 ▸ h2⟩

theorem rows_final (t1 : Frame) (c1 c2 : List String) (nt : List Row) :
    (if t1.rows.isEmpty then Frame.mk c1 nt else Frame.mk c2 (t1.rows ++ nt)).rows =
      t1.rows ++ nt := by
  by_cases h : t1.rows.isEmpty
  · rw [if_pos h, List.isEmpty_iff.mp h]
    rfl
  · rw [if_neg h]

theorem mem_dedupAppend {acc : List String} {k c : String} :
    c ∈ dedupAppend acc k ↔ c ∈ acc ∨ c = k := by
  unfold dedupAppend
  by_cases h : k ∈ acc
  · rw [if_pos h]
    constructor
    · exact Or.inl
    · rintro (hc | rfl)
      · exact hc
      · exact h
  · rw [if_neg h]
    simp

theorem mem_recCols {rec : RawRecord} {acc : List String} {c : String} :
    c ∈ recCols acc rec ↔ c ∈ acc ∨ hasField rec c = true := by
  unfold recCols hasField
  induction rec generalizing acc with
  | nil => simp
  | cons kv t ih =>
    rw [List.foldl_cons, ih, mem_dedupAppend]
    simp only [List.any_cons, Bool.or_eq_true, beq_iff_eq]
    constructor
    · rintro ((hc | rfl) | ht)
      · exact Or.inl hc
      · exact Or.inr (Or.inl rfl)
      · exact Or.inr (Or.inr ht)
    · rintro (hc | (heq | ht))
      · exact Or.inl (Or.inl hc)
      · exact Or.inl (Or.inr heq.symm)
      · exact Or.inr ht

theorem mem_foldl_recCols {b : RawBatch} {acc : List String} {c : String} :
    c ∈ b.foldl recCols acc ↔ c ∈ acc ∨ (b.any (fun rec => hasField rec c)) = true := by
  induction b generalizing acc with
  | nil => simp
  | cons rec t ih =>
    rw [List.foldl_cons, ih, mem_recCols]
    simp only [List.any_cons, Bool.or_eq_true]
    tauto

theorem mem_batchCols {b : RawBatch} {c : String} :
    c ∈ batchCols b ↔ (b.any (fun rec => hasField rec c)) = true := by
  unfold batchCols
  rw [mem_foldl_recCols]
  simp

end MLOps

/-! The claim theorems. -/

namespace MLOps

/-- C1: the code violates the claim. In `main` of train.py the tag
`trained_till_version = v{L}` is logged (`mlflow.set_tag`) before
`mlflow.sklearn.log_model` runs, so a run whose artifact log fails still
records the advanced tag durably. Evaluated here: the experiment's
derived watermark is 1 before the run; the run over `[2, 2]` fails at the
artifact log, yet a run tagged `trained_till_version = v2` (with top
accuracy 9 and no loadable model) is recorded, and the watermark the next
consumer derives is 0 — not 1. -/
theorem c1_watermark_advances_on_failed_artifact_log :
    watermark c1Exp = 1 ∧
    (train_main c1Exp c1Store true false 1 9).outcome = COutcome.abortedLogModel ∧
    (train_main c1Exp c1Store true false 1 9).exp = c1Exp ++ [⟨1, 9, 2, false⟩] ∧
    watermark (train_main c1Exp c1Store true false 1 9).exp = 0 := by decide

/-- C2: counterexample to the claim as stated. The experiment's best run
by accuracy (9) is trained through v2 while v3 exists; the first
invocation trains on v3 and logs a run with accuracy 5; the second
invocation again selects the accuracy-9 run, derives watermark 2 < 3, and
performs the training call again — the second run is not a no-op. -/
theorem c2_counterexample :
    (train_main c2Exp c2Store true true 1 5).trained = true ∧
    (train_main (train_main c2Exp c2Store true true 1 5).exp c2Store true true 2 5).trained
      = true := by decide

/-- C2 amended: when the first invocation's run strictly dominates every
earlier run's accuracy (so the best-accuracy run after it carries the
latest tag), a second invocation with no new versions published performs
no training call and leaves the experiment state unchanged. -/
theorem c2_amended (exp : Experiment) (s : Store) (id1 id2 : Nat) (a1 a2 : Int)
    (h : ∀ r ∈ exp, r.accuracy < a1) :
    (train_main (train_main exp s true true id1 a1).exp s true true id2 a2).trained = false ∧
    (train_main (train_main exp s true true id1 a1).exp s true true id2 a2).exp =
      (train_main exp s true true id1 a1).exp := by
  by_cases h0 : get_latest_version s = 0
  · have hexp : (train_main exp s true true id1 a1).exp = exp := by
      rw [train_main_noVersions exp s true true id1 a1 h0]
    rw [hexp, train_main_noVersions exp s true true id2 a2 h0]
    exact ⟨rfl, rfl⟩
  · by_cases h1 : get_latest_version s <
        (get_best_model_and_version exp true).2 + 1
    · have hexp : (train_main exp s true true id1 a1).exp = exp := by
        rw [train_main_upToDate exp s true true id1 a1 h0 h1]
      rw [hexp, train_main_upToDate exp s true true id2 a2 h0 h1]
      exact ⟨rfl, rfl⟩
    · rcases hl : load_versioned_data s ((get_best_model_and_version exp true).2 + 1)
          (get_latest_version s) with e | ⟨mt, mv⟩
      · have hexp : (train_main exp s true true id1 a1).exp = exp := by
          rw [train_main_loadError exp s true true id1 a1 e h0 h1 hl]
        rw [hexp, train_main_loadError exp s true true id2 a2 e h0 h1 hl]
        exact ⟨rfl, rfl⟩
      · by_cases hp : "price" ∈ mt.cols ∧ "price" ∈ mv.cols
        · have e1 : train_main exp s true true id1 a1 =
              ⟨exp ++ [⟨id1, a1, get_latest_version s, true⟩], true,
               decide (mt.cols.length ≠ 53), .committed, some (mt, mv)⟩ := by
            rw [train_main_run exp s true true id1 a1 mt mv h0 h1 hl, if_pos hp]
            rfl
          have hexp : (train_main exp s true true id1 a1).exp =
              exp ++ [⟨id1, a1, get_latest_version s, true⟩] := by rw [e1]
          have hW2 : (get_best_model_and_version
              (exp ++ [⟨id1, a1, get_latest_version s, true⟩]) true).2 =
              get_latest_version s := by
            rw [get_best_append_max exp ⟨id1, a1, get_latest_version s, true⟩ h rfl]
          rw [hexp, train_main_upToDate _ s true true id2 a2 h0 (by omega)]
          exact ⟨rfl, rfl⟩
        · have e1 : train_main exp s true true id1 a1 =
              ⟨exp, false, decide (mt.cols.length ≠ 53), .abortedNoPrice, none⟩ := by
            rw [train_main_run exp s true true id1 a1 mt mv h0 h1 hl, if_neg hp]
          have hexp : (train_main exp s true true id1 a1).exp = exp := by rw [e1]
          have e2 : train_main exp s true true id2 a2 =
              ⟨exp, false, decide (mt.cols.length ≠ 53), .abortedNoPrice, none⟩ := by
            rw [train_main_run exp s true true id2 a2 mt mv h0 h1 hl, if_neg hp]
          rw [hexp, e2]
          exact ⟨rfl, rfl⟩

/-- C2 amended, witness: from an empty experiment over a two-version
store, the first run's accuracy 5 dominates vacuously; the second run
trains nothing and changes nothing. -/
theorem c2_amended_witness :
    (train_main (train_main [] demoStore true true 1 5).exp demoStore true true 2 7).trained
      = false ∧
    (train_main (train_main [] demoStore true true 1 5).exp demoStore true true 2 7).exp =
      (train_main [] demoStore true true 1 5).exp :=
  c2_amended [] demoStore 1 2 5 7 (by decide)

/-- C3: counterexample to the claim as stated. With version v1 already
published, a publish attempt whose `versioned/` listing fails takes the
swallowed except path of `get_latest_version` (latest = 0), picks version
0 + 1 = 1 — a number that is an existing version — and its uploads
overwrite the stored v1 train and valid files. -/
theorem c3_counterexample :
    (publish_attempt c3Store c3FailOp).2 = 1 ∧
    1 ∈ versionsOf c3Store ∧
    read_csv_from_gcs c3Store 1 Part.train = some (priceFrame 1) ∧
    read_csv_from_gcs (publish_attempt c3Store c3FailOp).1 1 Part.train =
      some (priceFrame 9) ∧
    read_csv_from_gcs (publish_attempt c3Store c3FailOp).1 1 Part.valid =
      some (priceFrame 9) := by decide

/-- C3 amended: along any sequence of publish attempts in which each
attempt's `versioned/` listing succeeds (the swallowed except path of
`get_latest_version` is not taken; the train and valid uploads may still
silently fail), every attempt picks exactly `get_latest_version + 1`,
that number is never an existing version (no overwrite), and the versions
of the attempts that wrote at least one file form a strictly increasing
sequence with no reuse. -/
theorem c3_amended (s : Store) (ops : List PubOp)
    (hops : ∀ op ∈ ops, op.listOk = true) :
    (∀ r ∈ publishTrace s ops,
        r.version = get_latest_version r.pre + 1 ∧ r.version ∉ versionsOf r.pre) ∧
    (((publishTrace s ops).filter (fun r => r.wrote)).map (fun r => r.version)).Pairwise
      (· < ·) := by
  refine ⟨fun r hr => ⟨trace_version_eq ops s hops r hr, fun hmem => ?_⟩,
    trace_pairwise ops s hops⟩
  have h1 := trace_version_eq ops s hops r hr
  have h2 : r.version ≤ get_latest_version r.pre := le_foldr_max hmem
  omega

/-- C3 amended, witness: two healthy publish attempts from an empty store
assign versions 1 then 2 — fresh and strictly increasing. -/
theorem c3_amended_witness :
    (∀ r ∈ publishTrace emptyStore [c3OkOp, c3OkOp],
        r.version = get_latest_version r.pre + 1 ∧ r.version ∉ versionsOf r.pre) ∧
    (((publishTrace emptyStore [c3OkOp, c3OkOp]).filter (fun r => r.wrote)).map
        (fun r => r.version)).Pairwise (· < ·) :=
  c3_amended emptyStore [c3OkOp, c3OkOp] (by decide)

/-- C4: the code violates the claim. With one buffered train row and both
sources empty, the producer run deletes the instream objects at step 1 and
returns at step 4 ("No new data to process") without publishing or
re-storing them: the buffered row is lost from the store. -/
theorem c4_buffer_rows_lost :
    c4Store.instreamTrain = some ⟨["price"], [[some 7]]⟩ ∧
    cronjob_main 1000 4 5 id c4Store none [] = (emptyStore, .noNewData) := by decide

/-- C5: counterexample to the claim as stated. With a merged train count
of 2 (both rows already buffered, no new source rows) and batch size 1000,
the claim requires the merged buffer to be written back to instream; the
run instead ends with the instream location empty and nothing published. -/
theorem c5_counterexample :
    (cronjob_main 1000 4 5 id c5Store none []).2 = POutcome.noNewData ∧
    (cronjob_main 1000 4 5 id c5Store none []).1.instreamTrain = none ∧
    (cronjob_main 1000 4 5 id c5Store none []).1.blobs = [] := by decide

/-- C5 amended: for every producer run whose sources yield at least one
new row and whose preprocessing succeeds, the threshold dichotomy holds:
if buffered-plus-new train rows reach the batch size, version
`latest + 1` is published carrying the full accumulated train and valid
row lists and the instream location is left empty; otherwise nothing is
published, the versioned blobs are untouched, and the merged buffer is
written back to instream. -/
theorem c5_amended (batchSize sn sd : Nat) (perm : List Row → List Row) (s : Store)
    (src1 : Option RawBatch) (src2 : RawBatch) (p : Frame)
    (hne : ((src1.map drop_date).getD []) ++ src2 ≠ [])
    (hp : preprocess_data (((src1.map drop_date).getD []) ++ src2) = .ok p) :
    (batchSize ≤ (bufTrainRows s).length + (splitTrain sn sd perm p).length →
       (cronjob_main batchSize sn sd perm s src1 src2).2 =
         .published (get_latest_version s + 1) ∧
       (cronjob_main batchSize sn sd perm s src1 src2).1.instreamTrain = none ∧
       (cronjob_main batchSize sn sd perm s src1 src2).1.instreamValid = none ∧
       (read_csv_from_gcs (cronjob_main batchSize sn sd perm s src1 src2).1
           (get_latest_version s + 1) Part.train).map Frame.rows =
         some (bufTrainRows s ++ splitTrain sn sd perm p) ∧
       (read_csv_from_gcs (cronjob_main batchSize sn sd perm s src1 src2).1
           (get_latest_version s + 1) Part.valid).map Frame.rows =
         some (bufValidRows s ++ splitValid sn sd perm p)) ∧
    ((bufTrainRows s).length + (splitTrain sn sd perm p).length < batchSize →
       (cronjob_main batchSize sn sd perm s src1 src2).2 = .buffered ∧
       ((cronjob_main batchSize sn sd perm s src1 src2).1.instreamTrain).map Frame.rows =
         some (bufTrainRows s ++ splitTrain sn sd perm p) ∧
       ((cronjob_main batchSize sn sd perm s src1 src2).1.instreamValid).map Frame.rows =
         some (bufValidRows s ++ splitValid sn sd perm p) ∧
       (cronjob_main batchSize sn sd perm s src1 src2).1.blobs = s.blobs) := by
  have hcases : ¬((((src1.map drop_date).getD []) = []) ∧ src2 = []) := by
    rintro ⟨h1, h2⟩
    refine hne ?_
    rw [h1, h2]
    rfl
  have hg : ((((src1.map drop_date).getD []).isEmpty) && src2.isEmpty) = false := by
    cases hA : ((src1.map drop_date).getD []).isEmpty
    · rfl
    · cases hB : src2.isEmpty
      · rfl
      · exact absurd ⟨List.isEmpty_iff.mp hA, List.isEmpty_iff.mp hB⟩ hcases
  have hFT := rows_final (s.instreamTrain.getD emptyFrame) p.cols
      (colsUnion (s.instreamTrain.getD emptyFrame).cols p.cols) (splitTrain sn sd perm p)
  have hFV := rows_final (s.instreamValid.getD emptyFrame) p.cols
      (colsUnion (s.instreamValid.getD emptyFrame).cols p.cols) (splitValid sn sd perm p)
  unfold bufTrainRows bufValidRows
  simp only [cronjob_main, hg, Bool.false_eq_true, if_false, hp, cronjobAfterPre]
  rw [hFT, List.length_append]
  constructor
  · intro hle
    rw [if_pos hle]
    rw [show get_latest_version
        {instreamTrain := none, instreamValid := none, blobs := s.blobs} =
        get_latest_version s from rfl]
    refine ⟨rfl, rfl, rfl, ?_, ?_⟩
    · rw [read_upload_other _ _ _ _ _ _ (by simp), read_upload_self]
      simp only [Option.map_some']
      rw [hFT]
    · rw [read_upload_self]
      simp only [Option.map_some']
      rw [hFV]
  · intro hlt
    rw [if_neg (by omega)]
    refine ⟨rfl, ?_, ?_, rfl⟩
    · simp only [Option.map_some']
      rw [hFT]
    · simp only [Option.map_some']
      rw [hFV]

/-- C5 amended, witness: batch size 1, one buffered train row, one new
source record with the target present — the run publishes v1 with the
accumulated rows and leaves the instream location empty. -/
theorem c5_amended_witness :
    (1 ≤ (bufTrainRows w5Store).length + (splitTrain 4 5 id w5Frame).length →
       (cronjob_main 1 4 5 id w5Store none [c7RecFull]).2 =
         .published (get_latest_version w5Store + 1) ∧
       (cronjob_main 1 4 5 id w5Store none [c7RecFull]).1.instreamTrain = none ∧
       (cronjob_main 1 4 5 id w5Store none [c7RecFull]).1.instreamValid = none ∧
       (read_csv_from_gcs (cronjob_main 1 4 5 id w5Store none [c7RecFull]).1
           (get_latest_version w5Store + 1) Part.train).map Frame.rows =
         some (bufTrainRows w5Store ++ splitTrain 4 5 id w5Frame) ∧
       (read_csv_from_gcs (cronjob_main 1 4 5 id w5Store none [c7RecFull]).1
           (get_latest_version w5Store + 1) Part.valid).map Frame.rows =
         some (bufValidRows w5Store ++ splitValid 4 5 id w5Frame)) ∧
    ((bufTrainRows w5Store).length + (splitTrain 4 5 id w5Frame).length < 1 →
       (cronjob_main 1 4 5 id w5Store none [c7RecFull]).2 = .buffered ∧
       ((cronjob_main 1 4 5 id w5Store none [c7RecFull]).1.instreamTrain).map Frame.rows =
         some (bufTrainRows w5Store ++ splitTrain 4 5 id w5Frame) ∧
       ((cronjob_main 1 4 5 id w5Store none [c7RecFull]).1.instreamValid).map Frame.rows =
         some (bufValidRows w5Store ++ splitValid 4 5 id w5Frame) ∧
       (cronjob_main 1 4 5 id w5Store none [c7RecFull]).1.blobs = w5Store.blobs) :=
  c5_amended 1 4 5 id w5Store none [c7RecFull] w5Frame (by decide) (by decide)

end MLOps

namespace MLOps

/-- C6: counterexample to the claim as stated. The consumer loads a merged
frame with 2 columns (not 53); the claim requires an abort before the
training step, but the run proceeds to training (only printing the
warning). -/
theorem c6_counterexample :
    (train_main [] c6Store true true 1 5).trained = true ∧
    (train_main [] c6Store true true 1 5).widthWarn = true ∧
    ((train_main [] c6Store true true 1 5).loaded.map (fun pr => pr.1.cols.length)) =
      some 2 := by decide

/-- C6 amended: the 53-column check of the consumer only emits a warning
and never aborts; with the pending range loaded, the run reaches the
training step exactly when both merged frames carry a `price` column
(their absence is what raises before training), regardless of the column
count. -/
theorem c6_amended (exp : Experiment) (s : Store) (so lo : Bool) (id : Nat) (a : Int)
    (mt mv : Frame) (h0 : get_latest_version s ≠ 0)
    (h1 : ¬ get_latest_version s < (get_best_model_and_version exp so).2 + 1)
    (hl : load_versioned_data s ((get_best_model_and_version exp so).2 + 1)
            (get_latest_version s) = .ok (mt, mv)) :
    ((train_main exp s so lo id a).trained = true ↔
      ("price" ∈ mt.cols ∧ "price" ∈ mv.cols)) ∧
    (train_main exp s so lo id a).widthWarn = decide (mt.cols.length ≠ 53) := by
  have e := train_main_run exp s so lo id a mt mv h0 h1 hl
  by_cases hp : "price" ∈ mt.cols ∧ "price" ∈ mv.cols
  · rw [if_pos hp] at e
    rw [e]
    exact ⟨iff_of_true rfl hp, rfl⟩
  · rw [if_neg hp] at e
    rw [e]
    exact ⟨iff_of_false (by simp) hp, rfl⟩

/-- C6 amended, witness: the 2-column store; the run trains (price is
present) and the width warning fires. -/
theorem c6_amended_witness :
    ((train_main [] c6Store true true 1 5).trained = true ↔
      ("price" ∈ wideFrame.cols ∧ "price" ∈ wideFrame.cols)) ∧
    (train_main [] c6Store true true 1 5).widthWarn =
      decide (wideFrame.cols.length ≠ 53) :=
  c6_amended [] c6Store true true 1 5 wideFrame wideFrame (by decide) (by decide)
    (by decide)

/-- C7: counterexample to the claim as stated. A batch whose first record
has the target and whose second lacks it does not raise the
missing-target error: pandas column semantics give the frame a price
column (NaN for the second record), and the transform keeps both rows —
the second with a missing target value. -/
theorem c7_counterexample :
    preprocess_data c7Batch ≠ Except.error PreErr.missingTarget ∧
    (preprocess_data c7Batch).toOption.map (fun f => f.rows.map List.getLast?) =
      some [some (some 10), some none] := by decide

/-- C7 amended: the transform raises the missing-target error exactly when
the target field is absent from every record of the batch (only then does
the assembled frame lack a price column); in particular a batch in which
every record carries the target never raises it, and a batch in which
some but not all records carry it is processed with NaN targets. -/
theorem c7_amended (b : RawBatch) :
    preprocess_data b = .error .missingTarget ↔
      (b.all fun rec => !hasField rec "price") = true := by
  have hiff : ("price" ∉ batchCols b) ↔
      (b.all fun rec => !hasField rec "price") = true := by
    rw [not_iff_comm, mem_batchCols]
    simp [List.all_eq_true, List.any_eq_true]
  by_cases hp : "price" ∈ batchCols b
  · apply iff_of_false
    · intro h
      simp only [preprocess_data] at h
      rw [if_neg (not_not_intro hp)] at h
      split at h
      · exact PreErr.noConfusion (Except.error.inj h)
      · exact Except.noConfusion h
    · exact fun hall => (hiff.mpr hall) hp
  · apply iff_of_true
    · simp only [preprocess_data]
      rw [if_pos hp]
    · exact hiff.mp hp

/-- C8: the code violates the claim. `df[col].astype(str)` runs before
`.fillna("unknown")`, and astype stringifies NaN to the literal "nan", so
the fillna never fires: a missing categorical value is hashed as the
string "nan", not as "unknown". Evaluated here on a record with a missing
city: the transform output equals the output for the literal string
"nan" and differs from the output for "unknown". -/
theorem c8_missing_categorical_hashed_as_nan :
    categoricalString RawVal.na = "nan" ∧
    preprocess_data c8BatchNa = preprocess_data c8BatchNan ∧
    preprocess_data c8BatchNa ≠ preprocess_data c8BatchUnknown := by decide

/-- C9: counterexample to the claim as stated. When every version of the
pending range is unreadable (here: v1's valid file is missing, and v1 is
the whole range), `load_versioned_data` raises and the consumer run
aborts — the unreadable version is not merely "skipped without aborting
the run". -/
theorem c9_counterexample :
    load_versioned_data c9Store 1 1 = .error .noData ∧
    (train_main [] c9Store true true 1 5).outcome = COutcome.abortedLoad ∧
    (train_main [] c9Store true true 1 5).trained = false := by decide

/-- C9 amended: provided at least one version of the inclusive range is
readable, the loader returns normally: every version whose train or valid
file cannot be read is skipped, and the merged train and valid row lists
are the concatenations over the readable versions in strictly increasing
version order. (If no version of the range is readable, the run aborts —
see the counterexample.) -/
theorem c9_amended (s : Store) (a b : Nat)
    (h : ∃ v, v ∈ versionRange a b ∧ (readVersion s v).isSome = true) :
    mergedTrainRows s a b =
      some ((readableVersions s a b).flatMap (fun v => trainRowsOf s v)) ∧
    mergedValidRows s a b =
      some ((readableVersions s a b).flatMap (fun v => validRowsOf s v)) ∧
    (readableVersions s a b).Pairwise (· < ·) := by
  obtain ⟨v, hv, hsome⟩ := h
  have hne : ((versionRange a b).filterMap (readVersion s)).isEmpty = false := by
    rcases hp : (versionRange a b).filterMap (readVersion s) with _ | ⟨x, xs⟩
    · rw [List.filterMap_eq_nil_iff] at hp
      rw [hp v hv] at hsome
      cases hsome
    · rfl
  have hload := load_versioned_data_ok s a b hne
  refine ⟨?_, ?_, ?_⟩
  · simp only [mergedTrainRows, hload]
    rw [train_rows_of_filterMap]
    rfl
  · simp only [mergedValidRows, hload]
    rw [valid_rows_of_filterMap]
    rfl
  · exact (List.pairwise_lt_range' a (b + 1 - a)).filter _

/-- C9 amended, witness: over the range `[1, 2]` of a store whose v2 valid
file is missing, the loader returns v1's rows alone, in order. -/
theorem c9_amended_witness :
    mergedTrainRows w9Store 1 2 =
      some ((readableVersions w9Store 1 2).flatMap (fun v => trainRowsOf w9Store v)) ∧
    mergedValidRows w9Store 1 2 =
      some ((readableVersions w9Store 1 2).flatMap (fun v => validRowsOf w9Store v)) ∧
    (readableVersions w9Store 1 2).Pairwise (· < ·) :=
  c9_amended w9Store 1 2 ⟨1, by decide, by decide⟩

/-- C10: when the run search or the model load of
`get_best_model_and_version` fails, the consumer does not abort: it falls
back to (no model, watermark 0), the pending range becomes `[1, L]`, the
run loads that whole range — which contains every published version — and
reaches the training step. -/
theorem c10_fallback_full_retrain (exp : Experiment) (s : Store) (lo : Bool)
    (id : Nat) (a : Int) (mt mv : Frame)
    (hL : 1 ≤ get_latest_version s)
    (hl : load_versioned_data s 1 (get_latest_version s) = .ok (mt, mv))
    (hpt : "price" ∈ mt.cols) (hpv : "price" ∈ mv.cols) :
    get_best_model_and_version exp false = (none, 0) ∧
    (train_main exp s false lo id a).trained = true ∧
    (train_main exp s false lo id a).loaded = some (mt, mv) ∧
    ∀ w ∈ versionsOf s, 1 ≤ w → w ∈ versionRange 1 (get_latest_version s) := by
  have hW : (get_best_model_and_version exp false).2 = 0 := rfl
  have h0 : get_latest_version s ≠ 0 := by omega
  have h1 : ¬ get_latest_version s < (get_best_model_and_version exp false).2 + 1 := by
    rw [hW]
    omega
  have hl2 : load_versioned_data s ((get_best_model_and_version exp false).2 + 1)
      (get_latest_version s) = .ok (mt, mv) := by
    rw [hW, Nat.zero_add]
    exact hl
  have e := train_main_run exp s false lo id a mt mv h0 h1 hl2
  rw [if_pos ⟨hpt, hpv⟩] at e
  refine ⟨rfl, by rw [e], by rw [e], ?_⟩
  intro w hw h1w
  have h2 : w ≤ get_latest_version s := le_foldr_max hw
  exact List.mem_range'_1.mpr ⟨h1w, by omega⟩

/-- C10, witness: an experiment already trained through v2 over a
two-version store; with the search failing, the run retrains on the full
range `[1, 2]`, re-consuming both already-folded versions. -/
theorem c10_fallback_witness :
    get_best_model_and_version w10Exp false = (none, 0) ∧
    (train_main w10Exp demoStore false true 3 7).trained = true ∧
    (train_main w10Exp demoStore false true 3 7).loaded = some (w10Frame, w10Frame) ∧
    ∀ w ∈ versionsOf demoStore, 1 ≤ w →
      w ∈ versionRange 1 (get_latest_version demoStore) :=
  c10_fallback_full_retrain w10Exp demoStore true 3 7 w10Frame w10Frame (by decide)
    (by decide) (by decide) (by decide)

end MLOps
